import Mathlib

/-!
Verification of the moby build-engine core (daemon/dockerfile internals,
Windows OCI spec synthesis) against its natural-language specification.

The Go source is shallowly embedded:
* pure helpers (`getSourceHashFromInfos`, `hashStringSlice`) become pure
  Lean functions, with `crypto/sha256` implemented bit-faithfully over `Nat`
  (32-bit words are `Nat` reduced modulo `2^32`);
* pointer/slice aliasing of `container.Config` is made explicit with a small
  heap of cells addressed by `Nat` references;
* stateful builder methods (`commitContainer`, `exportImage`, `performCopy`,
  `probeCache`) become functions over an explicit `dispatchState`, taking the
  results of external collaborators (container backend, image store, rw-layer)
  as `Except`-valued inputs and returning the observable trace of actions.
-/

/-! ## SHA-256 (crypto/sha256), bytes as `Nat` in [0,256) -/

/-- Truncate to a 32-bit word, as Go's `uint32` arithmetic does. -/
def w32 (n : Nat) : Nat := n % 4294967296

/-- 32-bit rotate right (input assumed `< 2^32`). -/
def rotr32 (x n : Nat) : Nat := ((x >>> n) ||| (x <<< (32 - n))) % 4294967296

/-- 32-bit bitwise complement. -/
def not32 (x : Nat) : Nat := x ^^^ 4294967295

/-- The SHA-256 round constants. -/
def shaK : List Nat :=
  [1116352408, 1899447441, 3049323471, 3921009573, 961987163, 1508970993,
   2453635748, 2870763221, 3624381080, 310598401, 607225278, 1426881987,
   1925078388, 2162078206, 2614888103, 3248222580, 3835390401, 4022224774,
   264347078, 604807628, 770255983, 1249150122, 1555081692, 1996064986,
   2554220882, 2821834349, 2952996808, 3210313671, 3336571891, 3584528711,
   113926993, 338241895, 666307205, 773529912, 1294757372, 1396182291,
   1695183700, 1986661051, 2177026350, 2456956037, 2730485921, 2820302411,
   3259730800, 3345764771, 3516065817, 3600352804, 4094571909, 275423344,
   430227734, 506948616, 659060556, 883997877, 958139571, 1322822218,
   1537002063, 1747873779, 1955562222, 2024104815, 2227730452, 2361852424,
   2428436474, 2756734187, 3204031479, 3329325298]

/-- The SHA-256 initial hash state. -/
def shaH0 : List Nat :=
  [1779033703, 3144134277, 1013904242, 2773480762,
   1359893119, 2600822924, 528734635, 1541459225]

/-- Big-endian byte encoding of `n` on `k` bytes. -/
def beBytes : Nat → Nat → List Nat
  | 0, _ => []
  | k + 1, n => beBytes k (n / 256) ++ [n % 256]

/-- SHA-256 padding: append `0x80`, zero bytes, and the 64-bit bit length. -/
def sha256pad (msg : List Nat) : List Nat :=
  let z := (64 - ((msg.length + 9) % 64)) % 64
  msg ++ [0x80] ++ List.replicate z 0 ++ beBytes 8 (8 * msg.length)

/-- Group bytes into big-endian 32-bit words. -/
def toWords : List Nat → List Nat
  | a :: b :: c :: d :: rest => (((a * 256 + b) * 256 + c) * 256 + d) :: toWords rest
  | _ => []

/-- Split a word list into 16-word blocks (the padded input is a multiple of 16). -/
def chunk16 : List Nat → List (List Nat)
  | [] => []
  | w1 :: w2 :: w3 :: w4 :: w5 :: w6 :: w7 :: w8 ::
    w9 :: w10 :: w11 :: w12 :: w13 :: w14 :: w15 :: w16 :: rest =>
      [w1, w2, w3, w4, w5, w6, w7, w8, w9, w10, w11, w12, w13, w14, w15, w16] :: chunk16 rest
  | l => [l]

/-- σ₀ message-schedule function. -/
def ssig0 (x : Nat) : Nat := rotr32 x 7 ^^^ rotr32 x 18 ^^^ (x >>> 3)

/-- σ₁ message-schedule function. -/
def ssig1 (x : Nat) : Nat := rotr32 x 17 ^^^ rotr32 x 19 ^^^ (x >>> 10)

/-- Extend 16 words to the 64-word message schedule. -/
def schedule (ws : List Nat) : List Nat :=
  (List.range 48).foldl
    (fun acc _ =>
      acc ++ [w32 (ssig1 (acc.getD (acc.length - 2) 0) + acc.getD (acc.length - 7) 0 +
                   ssig0 (acc.getD (acc.length - 15) 0) + acc.getD (acc.length - 16) 0)])
    ws

/-- One SHA-256 round on the 8-word working state, given `(K[t], W[t])`. -/
def shaRound (st : List Nat) (kw : Nat × Nat) : List Nat :=
  match st with
  | [a, b, c, d, e, f, g, h] =>
    let S1 := rotr32 e 6 ^^^ rotr32 e 11 ^^^ rotr32 e 25
    let ch := (e &&& f) ^^^ (not32 e &&& g)
    let temp1 := w32 (h + S1 + ch + kw.1 + kw.2)
    let S0 := rotr32 a 2 ^^^ rotr32 a 13 ^^^ rotr32 a 22
    let maj := (a &&& b) ^^^ (a &&& c) ^^^ (b &&& c)
    let temp2 := w32 (S0 + maj)
    [w32 (temp1 + temp2), a, b, c, w32 (d + temp1), e, f, g]
  | other => other

/-- Compress one 16-word block into the hash state. -/
def compress (hs : List Nat) (block : List Nat) : List Nat :=
  let w := schedule block
  let st := (shaK.zip w).foldl shaRound hs
  (hs.zip st).map (fun p => w32 (p.1 + p.2))

/-- SHA-256 of a byte sequence, as 32 output bytes. -/
def sha256 (msg : List Nat) : List Nat :=
  let hs := (chunk16 (toWords (sha256pad msg))).foldl compress shaH0
  (hs.map (beBytes 4)).flatten

/-- UTF-8 encoding of one scalar value (Go strings are UTF-8 byte strings). -/
def utf8Bytes (c : Nat) : List Nat :=
  if c < 0x80 then [c]
  else if c < 0x800 then [0xC0 ||| (c >>> 6), 0x80 ||| (c &&& 0x3F)]
  else if c < 0x10000 then
    [0xE0 ||| (c >>> 12), 0x80 ||| ((c >>> 6) &&& 0x3F), 0x80 ||| (c &&& 0x3F)]
  else
    [0xF0 ||| (c >>> 18), 0x80 ||| ((c >>> 12) &&& 0x3F),
     0x80 ||| ((c >>> 6) &&& 0x3F), 0x80 ||| (c &&& 0x3F)]

/-- The bytes of a string, as Go sees them. -/
def strBytes (s : String) : List Nat := (s.data.map (fun c => utf8Bytes c.toNat)).flatten

/-- Lower-case hex digit for a value in [0,16). -/
def hexDigit (n : Nat) : Char := if n < 10 then Char.ofNat (48 + n) else Char.ofNat (87 + n)

/-- `encoding/hex.EncodeToString`: two lower-case hex digits per byte. -/
def hexEncodeToString (bs : List Nat) : String :=
  String.mk ((bs.map (fun b => [hexDigit (b / 16), hexDigit (b % 16)])).flatten)

/-! ## getSourceHashFromInfos / hashStringSlice (builder internals) -/

/-- One resolved source item of a copy instruction (`copyInfo`): a root path
and a content hash. -/
structure copyInfo where
  root : String
  hash : String
  deriving DecidableEq

/-- `hashStringSlice(prefix, slice)`: sha256 over the comma-joined slice,
hex-encoded, with `prefix + ":"` prepended. -/
def hashStringSlice (p : String) (slice : List String) : String :=
  p ++ ":" ++ hexEncodeToString (sha256 (strBytes (String.intercalate "," slice)))

/-- `getSourceHashFromInfos`: one info ⇒ its hash verbatim; otherwise hash
them all into one with the `"multi"` tag. -/
def getSourceHashFromInfos : List copyInfo → String
  | [i] => i.hash
  | infos => hashStringSlice "multi" (infos.map copyInfo.hash)

/-! ## Heap model for `container.Config` slice/map aliasing

Go's `container.Config` holds slices and maps by reference.  To state the
mutation/aliasing claims we make the references explicit: a `Heap` is a list
of cells, a reference is an index into it, allocation appends, and writing
(`m[k] = v` on a map) updates a cell in place. -/

/-- A reference into the heap (a Go slice/map/pointer value). -/
abbrev HRef := Nat

/-- A heap cell: the backing store of one slice, set-map, string-map or
`HealthConfig` value. -/
inductive Cell where
  | strs (xs : List String)
  | sset (xs : List String)
  | smap (xs : List (String × String))
  | health (test : List String)
  deriving DecidableEq

/-- The heap: cell `r` is `h[r]`; allocation appends at the end. -/
abbrev Heap := List Cell

/-- Allocate a fresh cell, returning its reference. -/
def Heap.alloc (h : Heap) (c : Cell) : HRef × Heap := (h.length, h ++ [c])

/-- Overwrite cell `r` in place. -/
def Heap.write (h : Heap) (r : HRef) (c : Cell) : Heap := h.set r c

/-- Read the string list behind an (optional) slice reference; Go's `nil`
slice reads as empty. -/
def readStrs (h : Heap) : Option HRef → List String
  | none => []
  | some r =>
    match h[r]? with
    | some (Cell.strs xs) => xs
    | _ => []

/-- Read the entries behind a set-typed map reference. -/
def readSet (h : Heap) : Option HRef → List String
  | none => []
  | some r =>
    match h[r]? with
    | some (Cell.sset xs) => xs
    | _ => []

/-- Read the entries behind a string-map reference. -/
def readMap (h : Heap) : Option HRef → List (String × String)
  | none => []
  | some r =>
    match h[r]? with
    | some (Cell.smap xs) => xs
    | _ => []

/-- The reference-valued fields of `container.Config` that the builder's
`copyRunConfig` deep-copies, plus the fields its modifiers touch.  Value
fields not involved in any claim are elided. -/
structure GoConfig where
  Cmd : Option HRef
  Env : Option HRef
  Entrypoint : Option HRef
  OnBuild : Option HRef
  Shell : Option HRef
  Volumes : Option HRef
  ExposedPorts : Option HRef
  Labels : Option HRef
  Healthcheck : Option HRef
  ArgsEscaped : Bool
  WorkingDir : String
  deriving DecidableEq

/-- The slice/map references reachable from a config (the eight fields the
immutability claim names). -/
def GoConfig.fieldRefs (c : GoConfig) : List HRef :=
  c.Cmd.toList ++ c.Env.toList ++ c.Entrypoint.toList ++ c.OnBuild.toList ++
  c.Shell.toList ++ c.Volumes.toList ++ c.ExposedPorts.toList ++ c.Labels.toList

/-- `copyStringSlice`: `nil` stays `nil`, otherwise the contents are copied
into a freshly allocated backing array. -/
def copyStringSlice (h : Heap) : Option HRef → Option HRef × Heap
  | none => (none, h)
  | some r =>
    let (r', h') := h.alloc (Cell.strs (readStrs h (some r)))
    (some r', h')

/-- Go map assignment `m[k] = struct{}{}` on a set-typed map cell. -/
def setInsert (h : Heap) (r : HRef) (k : String) : Heap :=
  let xs := readSet h (some r)
  h.write r (Cell.sset (if k ∈ xs then xs else xs ++ [k]))

/-- Go map assignment `m[k] = v` on a string-map cell. -/
def mapInsert (h : Heap) (r : HRef) (k v : String) : Heap :=
  let xs := readMap h (some r)
  h.write r (Cell.smap ((xs.filter (fun p => p.1 ≠ k)) ++ [(k, v)]))

/-- The `make`-then-range-copy loop `copyRunConfig` performs for `Volumes`
and `ExposedPorts`. -/
def copySetMap (h : Heap) : Option HRef → Option HRef × Heap
  | none => (none, h)
  | some r =>
    let entries := readSet h (some r)
    let (r', h') := h.alloc (Cell.sset [])
    (some r', entries.foldl (fun hh k => setInsert hh r' k) h')

/-- The `make`-then-range-copy loop `copyRunConfig` performs for `Labels`. -/
def copyStrMap (h : Heap) : Option HRef → Option HRef × Heap
  | none => (none, h)
  | some r =>
    let entries := readMap h (some r)
    let (r', h') := h.alloc (Cell.smap [])
    (some r', entries.foldl (fun hh kv => mapInsert hh r' kv.1 kv.2) h')

/-- Modelled from the spec: `defaultShellForOS` is defined outside the shown
source; the spec only requires "the platform's default shell invocation". -/
def defaultShellForOS (os : String) : List String :=
  if os = "windows" then ["cmd", "/S", "/C"] else ["/bin/sh", "-c"]

/-- `getShell`: the config's shell if non-empty, else the platform default;
always returned as a fresh copy (the Go code appends onto `[]string{}`). -/
def getShell (c : GoConfig) (os : String) (h : Heap) : List String :=
  let sh := readStrs h c.Shell
  if sh.length = 0 then defaultShellForOS os else sh

/-- The `runConfigModifier`s defined in the source, as tagged values.
Slice-valued parameters are heap references, exactly as the Go closures
capture slices. -/
inductive ModTag where
  | withCmd (cmd : Option HRef)
  | withArgsEscaped (argsEscaped : Bool)
  | withCmdComment (comment : String) (platform : String)
  | withCmdCommentString (comment : String) (platform : String)
  | withEnv (env : Option HRef)
  | withEntrypointOverride (cmd : Option HRef) (entrypoint : Option HRef)
  | withoutHealthcheck
  deriving DecidableEq

/-- Apply one modifier to (a pointer to) a config, as the Go closures do. -/
def applyMod (m : ModTag) (c : GoConfig) (h : Heap) : GoConfig × Heap :=
  match m with
  | ModTag.withCmd cmd => ({ c with Cmd := cmd }, h)
  | ModTag.withArgsEscaped b => ({ c with ArgsEscaped := b }, h)
  | ModTag.withCmdComment comment platform =>
    let (r, h') := h.alloc (Cell.strs (getShell c platform h ++ ["#(nop) ", comment]))
    ({ c with Cmd := some r }, h')
  | ModTag.withCmdCommentString comment platform =>
    let (r, h') := h.alloc (Cell.strs (getShell c platform h ++ ["#(nop) " ++ comment]))
    ({ c with Cmd := some r }, h')
  | ModTag.withEnv env => ({ c with Env := env }, h)
  | ModTag.withEntrypointOverride cmd entrypoint =>
    if 0 < (readStrs h cmd).length then ({ c with Entrypoint := entrypoint }, h) else (c, h)
  | ModTag.withoutHealthcheck =>
    let (r, h') := h.alloc (Cell.health ["NONE"])
    ({ c with Healthcheck := some r }, h')

/-- The references a modifier can store into the derived config. -/
def ModTag.storedRefs : ModTag → List HRef
  | ModTag.withCmd (some r) => [r]
  | ModTag.withEnv (some r) => [r]
  | ModTag.withEntrypointOverride _ (some r) => [r]
  | _ => []

/-- The deep-copy phase of `copyRunConfig`: struct-copy the config and copy
each slice/map field into fresh backing cells. -/
def copyRunConfigCopy (h : Heap) (rc : GoConfig) : GoConfig × Heap :=
  let s1 := copyStringSlice h rc.Cmd
  let s2 := copyStringSlice s1.2 rc.Env
  let s3 := copyStringSlice s2.2 rc.Entrypoint
  let s4 := copyStringSlice s3.2 rc.OnBuild
  let s5 := copyStringSlice s4.2 rc.Shell
  let s6 := copySetMap s5.2 rc.Volumes
  let s7 := copySetMap s6.2 rc.ExposedPorts
  let s8 := copyStrMap s7.2 rc.Labels
  ({ rc with
     Cmd := s1.1, Env := s2.1, Entrypoint := s3.1, OnBuild := s4.1, Shell := s5.1,
     Volumes := s6.1, ExposedPorts := s7.1, Labels := s8.1 },
   s8.2)

/-- `copyRunConfig`: struct-copy the config, deep-copy its slice and map
fields, then apply the modifiers in order to the copy. -/
def copyRunConfig (h : Heap) (rc : GoConfig) (mods : List ModTag) : GoConfig × Heap :=
  mods.foldl (fun p m => applyMod m p.1 p.2) (copyRunConfigCopy h rc)

/-- Heap `h'` agrees with `h` on every cell index below `n`: nothing that
already existed below the watermark has been mutated. -/
def Heap.agreeBelow (n : Nat) (h h' : Heap) : Prop :=
  ∀ r, r < n → h'[r]? = h[r]?

/-- Contract of one deep-copy step of `copyRunConfig`: the heap only grows,
no pre-existing cell changes, and the returned reference (if any) is fresh. -/
def CopyStepSpec (h : Heap) (res : Option HRef × Heap) : Prop :=
  h.length ≤ res.2.length ∧ Heap.agreeBelow h.length h res.2 ∧
    ∀ r, res.1 = some r → h.length ≤ r

/-- Invariant carried through the modifier fold of `copyRunConfig`, relative
to the original heap `h0` and the base config: the heap only grows, cells
below the original watermark are untouched, and no field of the evolving
copy aliases a field of the base. -/
def ModInv (h0 : Heap) (base : GoConfig) (p : GoConfig × Heap) : Prop :=
  h0.length ≤ p.2.length ∧ Heap.agreeBelow h0.length h0 p.2 ∧
    ∀ r ∈ p.1.fieldRefs, r ∉ base.fieldRefs

/-! ## Dispatch state and the commit/export pipeline

`commitContainer`, `exportImage`, `probeCache` and `performCopy` are
embedded as functions of the dispatch state and of the external
collaborators' results (container backend, image store, rw-layer, chown
resolution), which are passed in as `Except`/`Option`-valued inputs.
Construction of the child image's serialized config is folded into the
abstract store result, since only the image identity, the error and the
mount-tracker entries are observable in the claims. -/

/-- The per-build dispatch state fields the shown source reads/writes. -/
structure dispatchState where
  imageID : String
  maintainer : String
  operatingSystem : String
  deriving DecidableEq

/-- `CommitBuildStep`'s result: the image ID it returned and its error. -/
structure CommitResult where
  imageID : String
  err : Option String
  deriving DecidableEq

/-- `commitContainer`: no-op under `disableCommit`; otherwise it assigns the
collaborator's returned image ID to the dispatch state and returns the
collaborator's error. -/
def commitContainer (disableCommit : Bool) (st : dispatchState) (res : CommitResult) :
    dispatchState × Option String :=
  if disableCommit then (st, none)
  else ({ st with imageID := res.imageID }, res.err)

/-- An immutable layer produced by committing a writable layer. -/
structure NewLayer where
  diffID : String
  contentStoreDigest : String
  deriving DecidableEq

/-- A registered image as returned by the image store. -/
structure ExportedImage where
  imageID : String
  deriving DecidableEq

/-- One `imageSources.Add(newImageMount(img, layer), platform)` registration:
the image is `none` for the provisional no-image-yet entry. -/
structure MountEntry where
  image : Option ExportedImage
  layer : NewLayer
  deriving DecidableEq

/-- The collaborator results `exportImage` consumes, in call order:
`layer.Commit()`, the `parent.(*image.Image)` type assertion,
`newImage.MarshalJSON()`, and `docker.CreateImage(...)`. -/
structure ExportInputs where
  layerCommit : Except String NewLayer
  parentIsImage : Bool
  marshal : Except String String
  createImage : Except String ExportedImage

/-- The outcome of `exportImage`: final state, the mount-tracker entries
registered (in order), and the returned error. -/
structure ExportResult where
  st : dispatchState
  mounts : List MountEntry
  err : Option String
  deriving DecidableEq

/-- `exportImage`: commit the rw-layer; assert the parent's concrete type;
register the provisional (no-image, layer) mount; build and marshal the
child image; register it with the store; update the state's image ID and
register the (image, layer) mount. -/
def exportImage (st : dispatchState) (inp : ExportInputs) : ExportResult :=
  match inp.layerCommit with
  | Except.error e => ⟨st, [], some e⟩
  | Except.ok newLayer =>
    if !inp.parentIsImage then ⟨st, [], some "unexpected image type"⟩
    else
      let provisional : MountEntry := ⟨none, newLayer⟩
      match inp.marshal with
      | Except.error e => ⟨st, [provisional], some ("failed to encode image config: " ++ e)⟩
      | Except.ok _config =>
        match inp.createImage with
        | Except.error e => ⟨st, [provisional], some ("failed to export image: " ++ e)⟩
        | Except.ok exportedImage =>
          ⟨{ st with imageID := exportedImage.imageID },
           [provisional, ⟨some exportedImage, newLayer⟩], none⟩

/-- `imageProber.Probe`'s result: the cached image ID (`""` for a miss) and
its error. -/
structure ProbeResult where
  cachedID : String
  err : Option String
  deriving DecidableEq

/-- `probeCache`: a miss (or error) leaves the state alone; a hit replaces
the state's image ID with the cached one. -/
def probeCache (st : dispatchState) (res : ProbeResult) :
    Bool × dispatchState × Option String :=
  if res.cachedID = "" ∨ res.err.isSome then (false, st, res.err)
  else (true, { st with imageID := res.cachedID }, none)

/-- A resolved chown identity (`identity{UID, GID}`). -/
structure identity where
  UID : Nat
  GID : Nat
  deriving DecidableEq

/-- The fields of `copyInstruction` the shown code reads. -/
structure CopyInstruction where
  cmdName : String
  chownStr : String
  dest : String
  infos : List copyInfo

/-- The observable actions of one `performCopy` execution, in order.  The
probe action carries the comment string of the synthetic comment
configuration the cache is probed with. -/
inductive CopyAction where
  | probe (comment : String)
  | getImage
  | newRWLayer
  | releaseLayer
  | resolveOwnership
  | materialize
  | exportStep
  deriving DecidableEq

/-- The collaborator results `performCopy` consumes, in call order. -/
structure CopyInputs where
  probeResult : ProbeResult
  getImageMount : Except String Unit
  newRWLayer : Except String Unit
  normalizeDest : Except String String
  parseChown : Except String identity
  materialize : copyInfo → Option String
  exportInputs : ExportInputs
  optionsPlatform : String

/-- The synthetic comment string `performCopy` embeds in the candidate
configuration: `"<cmd> <--chown=...| ><srcHash> in <dest> "`. -/
def copyCommentStr (inst : CopyInstruction) : String :=
  let chownComment := if inst.chownStr = "" then "" else "--chown=" ++ inst.chownStr ++ " "
  inst.cmdName ++ " " ++ chownComment ++ getSourceHashFromInfos inst.infos ++
    " in " ++ inst.dest ++ " "

/-- The per-info materialization loop: stop at the first failing
`performCopyForInfo`, recording one `materialize` action per attempt. -/
def materializeLoop (materialize : copyInfo → Option String) :
    List copyInfo → List CopyAction × Option String
  | [] => ([], none)
  | i :: rest =>
    match materialize i with
    | some e => ([CopyAction.materialize], some ("failed to copy files: " ++ e))
    | none =>
      let (tr, err) := materializeLoop materialize rest
      (CopyAction.materialize :: tr, err)

/-- The tail of `performCopy` after destination normalization and (when
requested) ownership resolution: materialize every source info, then invoke
`exportImage`; `tr` is the action trace accumulated so far. -/
def performCopyTail (st : dispatchState) (inst : CopyInstruction) (inp : CopyInputs)
    (tr : List CopyAction) : dispatchState × List CopyAction × Option String :=
  let mres := materializeLoop inp.materialize inst.infos
  match mres.2 with
  | some e => (st, tr ++ mres.1 ++ [CopyAction.releaseLayer], some e)
  | none =>
    let er := exportImage st inp.exportInputs
    (er.st, tr ++ mres.1 ++ [CopyAction.exportStep, CopyAction.releaseLayer], er.err)

/-- `performCopy`: build the comment config and probe the cache; on a miss,
acquire the destination image mount and a writable layer (released on every
later exit), normalize the destination, resolve ownership when a chown was
requested, materialize every source info, and export the image. -/
def performCopy (st0 : dispatchState) (inst : CopyInstruction) (inp : CopyInputs) :
    dispatchState × List CopyAction × Option String :=
  let commentStr := copyCommentStr inst
  let pres := probeCache st0 inp.probeResult
  let hit := pres.1
  let st := pres.2.1
  let perr := pres.2.2
  if perr.isSome ∨ hit then (st, [CopyAction.probe commentStr], perr)
  else
    let tr0 := [CopyAction.probe commentStr, CopyAction.getImage]
    match inp.getImageMount with
    | Except.error e =>
      (st, tr0, some ("failed to get destination image " ++ st.imageID ++ ": " ++ e))
    | Except.ok _ =>
      let tr1 := tr0 ++ [CopyAction.newRWLayer]
      match inp.newRWLayer with
      | Except.error e => (st, tr1, some e)
      | Except.ok _ =>
        -- from here on `defer rwLayer.Release()` is armed; every exit path
        -- ends in a `releaseLayer` action
        match inp.normalizeDest with
        | Except.error e =>
          (st, tr1 ++ [CopyAction.releaseLayer], some ("invalid " ++ inst.cmdName ++ ": " ++ e))
        | Except.ok _dest =>
          if inst.chownStr ≠ "" then
            let tr2 := tr1 ++ [CopyAction.resolveOwnership]
            match inp.parseChown with
            | Except.error e =>
              (st, tr2 ++ [CopyAction.releaseLayer],
               some (if inp.optionsPlatform ≠ "windows"
                     then "unable to convert uid/gid chown string to host mapping: " ++ e
                     else "unable to map container user account name to SID: " ++ e))
            | Except.ok _ => performCopyTail st inst inp tr2
          else performCopyTail st inst inp tr1

/-! ## Windows runtime-spec boundary: devices and credential specs -/

/-- The error classification `errdefs` attaches: `invalidParameter` for
`errdefs.InvalidParameter`, `system` for `errdefs.System`, and `generic`
for unclassified errors (`errors.Errorf`/`fmt.Errorf`). -/
inductive ErrClass where
  | invalidParameter
  | system
  | generic
  deriving DecidableEq

/-- An error value together with its `errdefs` classification. -/
structure GoError where
  cls : ErrClass
  msg : String
  deriving DecidableEq

/-- Whether `pat` is a prefix of the char list `s`. -/
def charsHasPre (pat : List Char) (s : List Char) : Bool :=
  match pat, s with
  | [], _ => true
  | _ :: _, [] => false
  | p :: ps, c :: cs => p = c && charsHasPre ps cs

/-- `strings.HasPrefix`. -/
def goHasPre (s pre : String) : Bool := charsHasPre pre.data s.data

/-- Drop the first `n` characters of a string. -/
def goDrop (s : String) (n : Nat) : String := String.mk (s.data.drop n)

/-- Split at the first occurrence of `sep` (char-level worker for `goCut`). -/
def cutChars (sep : List Char) : List Char → Option (List Char × List Char)
  | [] => if charsHasPre sep [] then some ([], []) else none
  | c :: cs =>
    if charsHasPre sep (c :: cs) then some ([], (c :: cs).drop sep.length)
    else
      match cutChars sep cs with
      | some (pre, post) => some (c :: pre, post)
      | none => none

/-- `strings.Cut(s, sep)`: the text before and after the first occurrence of
`sep`, or `none` when `sep` does not occur. -/
def goCut (s sep : String) : Option (String × String) :=
  match cutChars sep.data s.data with
  | some (pre, post) => some (String.mk pre, String.mk post)
  | none => none

/-- ASCII lower-casing of one character. -/
def lowerChar (c : Char) : Char :=
  if 'A' ≤ c ∧ c ≤ 'Z' then Char.ofNat (c.toNat + 32) else c

/-- `strings.ToLower`/`strings.EqualFold` support (ASCII case folding, which
is all the compared literals exercise). -/
def goToLower (s : String) : String := String.mk (s.data.map lowerChar)

/-- A `container.DeviceMapping`; only `PathOnHost` is read on Windows. -/
structure DeviceMapping where
  PathOnHost : String
  deriving DecidableEq

/-- An OCI `specs.WindowsDevice`. -/
structure WindowsDevice where
  ID : String
  IDType : String
  deriving DecidableEq

/-- `setupWindowsDevices`: `class/ID` and `IDType://ID` forms are accepted;
anything else is rejected with a plain (unclassified) `errors.Errorf` error. -/
def setupWindowsDevices (devices : List DeviceMapping) : Except GoError (List WindowsDevice) :=
  match devices with
  | [] => Except.ok []
  | d :: rest =>
    let path := d.PathOnHost
    let one : Except GoError WindowsDevice :=
      if goHasPre path "class/" then
        Except.ok ⟨goDrop path 6, "class"⟩
      else
        match goCut path "://" with
        | none =>
          Except.error ⟨ErrClass.generic,
            "invalid device assignment path: '" ++ path ++ "', must be 'class/ID' or 'IDType://ID'"⟩
        | some (idType, id) =>
          if idType = "" then
            Except.error ⟨ErrClass.generic,
              "invalid device assignment path: '" ++ path ++ "', IDType cannot be empty"⟩
          else Except.ok ⟨id, idType⟩
    match one, setupWindowsDevices rest with
    | Except.error e, _ => Except.error e
    | _, Except.error e => Except.error e
    | Except.ok dev, Except.ok devs => Except.ok (dev :: devs)

/-- The `errInvalidCredentialSpecSecOpt` value. -/
def errInvalidCredentialSpecSecOpt : GoError :=
  ⟨ErrClass.invalidParameter,
   "invalid credential spec security option - value must be prefixed by 'file://', 'registry://', or 'raw://' followed by a non-empty value"⟩

/-- The collaborators `setWindowsCredentialSpec` consults: the file and
registry readers, and — when the container is swarmkit-managed — the
dependency store's config getter. -/
structure CredCollab where
  readFile : String → Except String String
  readRegistry : String → Except String String
  configGet : Option (String → Except String String)

/-- Process one `--security-opt` entry as the loop body of
`setWindowsCredentialSpec` does, returning the new `credentialSpec` value. -/
def credSpecStep (collab : CredCollab) (secOpt : String) : Except GoError String :=
  match goCut secOpt "=" with
  | none =>
    Except.error ⟨ErrClass.invalidParameter,
      "invalid security option: no equals sign in supplied value " ++ secOpt⟩
  | some (k, v) =>
    if goToLower k ≠ "credentialspec" then
      Except.error ⟨ErrClass.invalidParameter, "security option not supported: " ++ k⟩
    else
      match goCut v "://" with
      | none => Except.error errInvalidCredentialSpecSecOpt
      | some (scheme, value) =>
        if value = "" then Except.error errInvalidCredentialSpecSecOpt
        else if goToLower scheme = "file" then
          match collab.readFile value with
          | Except.error e => Except.error ⟨ErrClass.invalidParameter, e⟩
          | Except.ok cs => Except.ok cs
        else if goToLower scheme = "registry" then
          match collab.readRegistry value with
          | Except.error e => Except.error ⟨ErrClass.invalidParameter, e⟩
          | Except.ok cs => Except.ok cs
        else if goToLower scheme = "config" then
          match collab.configGet with
          | none => Except.error errInvalidCredentialSpecSecOpt
          | some get =>
            match get value with
            | Except.error e =>
              Except.error ⟨ErrClass.system, "error getting value from config store: " ++ e⟩
            | Except.ok cs => Except.ok cs
        else if goToLower scheme = "raw" then Except.ok value
        else Except.error errInvalidCredentialSpecSecOpt

/-- `setWindowsCredentialSpec`: validate every security option in order,
keeping only the last resulting credential spec. -/
def setWindowsCredentialSpec (collab : CredCollab) (secOpts : List String) :
    Except GoError String :=
  match secOpts with
  | [] => Except.ok ""
  | s :: rest =>
    match credSpecStep collab s with
    | Except.error e => Except.error e
    | Except.ok _cs =>
      match setWindowsCredentialSpec collab rest with
      | Except.error e => Except.error e
      | Except.ok cs' => Except.ok cs'

/-- The `errdefs` class of an `Except` result's error, if any. -/
def exceptErrClass {α : Type} : Except GoError α → Option ErrClass
  | Except.error e => some e.cls
  | Except.ok _ => none

/-- A device path `setupWindowsDevices` rejects: neither `class/...` nor of
the form `IDType://ID` with a non-empty `IDType`. -/
def deviceMalformed (path : String) : Bool :=
  !goHasPre path "class/" &&
    (match goCut path "://" with
     | none => true
     | some (idType, _) => idType = "")

/-- A security option `setWindowsCredentialSpec` rejects on shape alone
(before consulting any collaborator): no `=`, a key other than
`credentialspec`, no `://`, an empty value, or an unknown scheme. -/
def credOptMalformed (s : String) : Bool :=
  match goCut s "=" with
  | none => true
  | some (k, v) =>
    if goToLower k ≠ "credentialspec" then true
    else
      match goCut v "://" with
      | none => true
      | some (scheme, value) =>
        value = "" ||
          !(goToLower scheme = "file" || goToLower scheme = "registry" ||
            goToLower scheme = "config" || goToLower scheme = "raw")

/-! ## Claim theorems -/

/-- C1: for a copy instruction whose resolved source list contains exactly
one item, the step's cache-relevant hash is that item's own content hash
verbatim — no prefix, wrapping or re-digesting. -/
theorem single_source_hash_verbatim (i : copyInfo) :
    getSourceHashFromInfos [i] = i.hash := rfl

/-- Auxiliary: string append is associative with a fused literal head. -/
theorem multi_tag_append (x : String) : "multi" ++ ":" ++ x = "multi:" ++ x := by
  have h : ("multi" ++ ":" : String) = "multi:" := by decide
  rw [h]

/-- C2 (counterexample): the aggregate hash is NOT order-sensitive for every
pair of distinct source hashes: with `a = "x,x"` and `b = "x"` the lists
`[a, b]` and `[b, a]` comma-join to the same string `"x,x,x"`, so their
aggregates coincide although `a ≠ b`. -/
theorem multi_source_order_counterexample :
    ("x,x" : String) ≠ "x" ∧
    getSourceHashFromInfos [⟨"", "x,x"⟩, ⟨"", "x"⟩] =
      getSourceHashFromInfos [⟨"", "x"⟩, ⟨"", "x,x"⟩] := by
  constructor
  · decide
  · decide

/-- C2 (amended): the aggregate hash of two or more sources carries the
fixed prefix tag `"multi:"` and is a deterministic function of the ordered
list of individual hashes; it is order-sensitive only up to the comma-joined
concatenation of the hashes — concretely `["a","b"]` and `["b","a"]` give
different aggregates, while orderings whose comma-joins coincide collide. -/
theorem multi_source_hash_amended :
    (∀ hs : List String, ∃ rest, hashStringSlice "multi" hs = "multi:" ++ rest) ∧
    (∀ infos infos' : List copyInfo,
        infos.map copyInfo.hash = infos'.map copyInfo.hash →
        getSourceHashFromInfos infos = getSourceHashFromInfos infos') ∧
    getSourceHashFromInfos [⟨"", "a"⟩, ⟨"", "b"⟩] ≠
      getSourceHashFromInfos [⟨"", "b"⟩, ⟨"", "a"⟩] := by
  refine ⟨fun hs => ⟨hexEncodeToString (sha256 (strBytes (String.intercalate "," hs))),
      multi_tag_append _⟩,
    fun infos infos' hmap => ?_, by decide⟩
  · cases infos with
    | nil =>
      cases infos' with
      | nil => rfl
      | cons i' t' => simp at hmap
    | cons i t =>
      cases infos' with
      | nil => simp at hmap
      | cons i' t' =>
        cases t with
        | nil =>
          cases t' with
          | nil =>
            simp only [List.map_cons, List.map_nil, List.cons.injEq, and_true] at hmap
            show i.hash = i'.hash
            exact hmap
          | cons j' t'' => simp at hmap
        | cons j t2 =>
          cases t' with
          | nil => simp at hmap
          | cons j' t'' =>
            show hashStringSlice "multi" _ = hashStringSlice "multi" _
            rw [hmap]

/-- C2 (witness for the amended theorem): the determinism conjunct applied at
two singleton lists with equal hash but different roots. -/
theorem multi_source_hash_amended_witness :
    ([⟨"r1", "h"⟩] : List copyInfo).map copyInfo.hash =
      ([⟨"r2", "h"⟩] : List copyInfo).map copyInfo.hash ∧
    getSourceHashFromInfos [⟨"r1", "h"⟩] = getSourceHashFromInfos [⟨"r2", "h"⟩] :=
  ⟨by decide, multi_source_hash_amended.2.1 [⟨"r1", "h"⟩] [⟨"r2", "h"⟩] (by decide)⟩

/-- C10: the multi-source aggregate depends only on the comma-joined
concatenation of the individual hashes; in particular the distinct source
sets `["x,y", "z"]` and `["x", "y,z"]` produce identical cache key
material. -/
theorem aggregate_depends_only_on_join :
    (∀ (p : String) (l1 l2 : List String),
        String.intercalate "," l1 = String.intercalate "," l2 →
        hashStringSlice p l1 = hashStringSlice p l2) ∧
    getSourceHashFromInfos [⟨"", "x,y"⟩, ⟨"", "z"⟩] =
      getSourceHashFromInfos [⟨"", "x"⟩, ⟨"", "y,z"⟩] := by
  constructor
  · intro p l1 l2 hj
    unfold hashStringSlice
    rw [hj]
  · decide

/-- C10 (witness): the join-congruence conjunct applied at the concrete
lists `["x,y","z"]` and `["x","y,z"]`. -/
theorem aggregate_depends_only_on_join_witness :
    String.intercalate "," ["x,y", "z"] = String.intercalate "," ["x", "y,z"] ∧
    hashStringSlice "multi" ["x,y", "z"] = hashStringSlice "multi" ["x", "y,z"] :=
  ⟨by decide, aggregate_depends_only_on_join.1 "multi" ["x,y", "z"] ["x", "y,z"] (by decide)⟩

/-- C7: the entrypoint-override modifier leaves the configuration (and heap)
untouched when the given command is empty, and sets the entrypoint to the
given value when the command is non-empty. -/
theorem entrypoint_override_asymmetry (c : GoConfig) (h : Heap) (cmd entry : Option HRef) :
    ((readStrs h cmd).length = 0 →
      applyMod (ModTag.withEntrypointOverride cmd entry) c h = (c, h)) ∧
    (0 < (readStrs h cmd).length →
      applyMod (ModTag.withEntrypointOverride cmd entry) c h =
        ({ c with Entrypoint := entry }, h)) := by
  constructor
  · intro hz
    simp only [applyMod]
    rw [if_neg (by omega)]
  · intro hp
    simp only [applyMod]
    rw [if_pos hp]

/-- C7 (witness): the two implications discharged at concrete inputs: an
empty (nil) command leaves the config alone, a one-element command overrides
the entrypoint. -/
theorem entrypoint_override_asymmetry_witness :
    (let c : GoConfig :=
      ⟨none, none, some 0, none, none, none, none, none, none, false, ""⟩
     (readStrs [Cell.strs ["ep"]] none).length = 0 ∧
     applyMod (ModTag.withEntrypointOverride none (some 1)) c [Cell.strs ["ep"]] =
       (c, [Cell.strs ["ep"]])) ∧
    (let c : GoConfig :=
      ⟨none, none, some 0, none, none, none, none, none, none, false, ""⟩
     0 < (readStrs [Cell.strs ["ep"]] (some 0)).length ∧
     applyMod (ModTag.withEntrypointOverride (some 0) (some 1)) c [Cell.strs ["ep"]] =
       ({ c with Entrypoint := some 1 }, [Cell.strs ["ep"]])) :=
  ⟨⟨by decide,
    (entrypoint_override_asymmetry _ [Cell.strs ["ep"]] none (some 1)).1 (by decide)⟩,
   ⟨by decide,
    (entrypoint_override_asymmetry _ [Cell.strs ["ep"]] (some 0) (some 1)).2 (by decide)⟩⟩

/-- Reading back a freshly allocated string-slice cell. -/
theorem readStrs_alloc (h : Heap) (xs : List String) :
    readStrs (h ++ [Cell.strs xs]) (some h.length) = xs := by
  simp only [readStrs, List.getElem?_concat_length]

/-- C8: the two nop-comment modifiers produce exactly their historical
encodings — the two-token form appends the elements `"#(nop) "` and the
comment after the shell tokens, the single-token form appends the single
element `"#(nop) " ++ comment` — for every comment, shell and platform; the
form depends only on which modifier is selected, never on the comment. -/
theorem nop_comment_encodings (comment platform : String) (c : GoConfig) (h : Heap) :
    readStrs (applyMod (ModTag.withCmdComment comment platform) c h).2
        (applyMod (ModTag.withCmdComment comment platform) c h).1.Cmd =
      getShell c platform h ++ ["#(nop) ", comment] ∧
    readStrs (applyMod (ModTag.withCmdCommentString comment platform) c h).2
        (applyMod (ModTag.withCmdCommentString comment platform) c h).1.Cmd =
      getShell c platform h ++ ["#(nop) " ++ comment] := by
  constructor
  · show readStrs (h ++ [_]) (some h.length) = _
    exact readStrs_alloc h _
  · show readStrs (h ++ [_]) (some h.length) = _
    exact readStrs_alloc h _

/-- C4 (counterexample): when the container-commit collaborator fails,
`commitContainer` still assigns the collaborator's returned (empty) image ID
to the dispatch state: the step failed, yet the image identity changed from
`"img0"` to `""`. -/
theorem commitContainer_failure_counterexample :
    (commitContainer false ⟨"img0", "", ""⟩ ⟨"", some "commit failed"⟩).2 =
      some "commit failed" ∧
    (commitContainer false ⟨"img0", "", ""⟩ ⟨"", some "commit failed"⟩).1.imageID ≠ "img0" := by
  constructor
  · rfl
  · decide

/-- C4 (amended): `exportImage` leaves the dispatch state's image identity
unchanged on every failure and replaces it exactly on full success (with the
registered image's identity); `commitContainer`, however, assigns the
collaborator's returned identity unconditionally, so on a failing commit the
identity is preserved only when the returned identity happens to equal the
previous one (it is preserved under `disableCommit`, which skips the step). -/
theorem step_failure_image_identity_amended :
    (∀ (st : dispatchState) (inp : ExportInputs),
        (exportImage st inp).err.isSome → (exportImage st inp).st = st) ∧
    (∀ (st : dispatchState) (inp : ExportInputs),
        (exportImage st inp).err = none →
        ∃ img, inp.createImage = Except.ok img ∧
          (exportImage st inp).st.imageID = img.imageID) ∧
    (∀ (st : dispatchState) (res : CommitResult),
        res.err.isSome →
        ((commitContainer false st res).1.imageID = st.imageID ↔ res.imageID = st.imageID)) ∧
    (∀ (st : dispatchState) (res : CommitResult), commitContainer true st res = (st, none)) := by
  refine ⟨fun st inp herr => ?_, fun st inp hok => ?_, fun st res _ => Iff.rfl, fun st res => rfl⟩
  · unfold exportImage at *
    cases hl : inp.layerCommit with
    | error e => simp [hl]
    | ok layer =>
      simp only [hl] at herr ⊢
      cases hpi : inp.parentIsImage with
      | false => simp [hpi]
      | true =>
        simp only [hpi] at herr ⊢
        cases hm : inp.marshal with
        | error e => simp [hm]
        | ok cfg =>
          simp only [hm] at herr ⊢
          cases hc : inp.createImage with
          | error e => simp [hc]
          | ok img => simp [hc] at herr
  · unfold exportImage at *
    cases hl : inp.layerCommit with
    | error e => simp [hl] at hok
    | ok layer =>
      simp only [hl] at hok ⊢
      cases hpi : inp.parentIsImage with
      | false => simp [hpi] at hok
      | true =>
        simp only [hpi] at hok ⊢
        cases hm : inp.marshal with
        | error e => simp [hm] at hok
        | ok cfg =>
          simp only [hm] at hok ⊢
          cases hc : inp.createImage with
          | error e => simp [hc] at hok
          | ok img => exact ⟨img, rfl, by simp [hc]⟩

/-- C4 (witness): the amended theorem applied at a concrete failing export
(store registration fails) and a concrete successful one. -/
theorem step_failure_image_identity_amended_witness :
    (let badInp : ExportInputs :=
      ⟨Except.ok ⟨"d", "g"⟩, true, Except.ok "cfg", Except.error "store down"⟩
     (exportImage ⟨"img0", "", ""⟩ badInp).err.isSome ∧
     (exportImage ⟨"img0", "", ""⟩ badInp).st = ⟨"img0", "", ""⟩) ∧
    (let goodInp : ExportInputs :=
      ⟨Except.ok ⟨"d", "g"⟩, true, Except.ok "cfg", Except.ok ⟨"img1"⟩⟩
     (exportImage ⟨"img0", "", ""⟩ goodInp).err = none ∧
     ∃ img, goodInp.createImage = Except.ok img ∧
       (exportImage ⟨"img0", "", ""⟩ goodInp).st.imageID = img.imageID) :=
  ⟨⟨by decide,
    step_failure_image_identity_amended.1 ⟨"img0", "", ""⟩
      ⟨Except.ok ⟨"d", "g"⟩, true, Except.ok "cfg", Except.error "store down"⟩ (by decide)⟩,
   ⟨by decide,
    step_failure_image_identity_amended.2.1 ⟨"img0", "", ""⟩
      ⟨Except.ok ⟨"d", "g"⟩, true, Except.ok "cfg", Except.ok ⟨"img1"⟩⟩ (by decide)⟩⟩

/-- C5 (counterexample): if the parent type assertion fails after the
writable layer was successfully committed, `exportImage` fails without ever
registering the committed layer with the mount tracker — an execution in
which a step after the layer commit fails but the layer is not tracked. -/
theorem exportImage_untracked_layer_counterexample :
    (exportImage ⟨"img0", "", ""⟩
        ⟨Except.ok ⟨"d", "g"⟩, false, Except.ok "cfg", Except.ok ⟨"img1"⟩⟩).err.isSome ∧
    (exportImage ⟨"img0", "", ""⟩
        ⟨Except.ok ⟨"d", "g"⟩, false, Except.ok "cfg", Except.ok ⟨"img1"⟩⟩).mounts = [] := by
  constructor
  · decide
  · decide

/-- C5 (amended): once the writable layer has been committed AND the parent
passes the concrete-image type assertion, the provisional (no-image, layer)
mount entry is registered before config marshaling or store registration is
attempted: it is the first tracker entry in every such execution, a failure
of either later step leaves exactly that entry, and on success a superseding
entry associating the layer with the finished image follows it.  (If the
type assertion itself fails after the commit, the layer is not registered.) -/
theorem exportImage_mount_tracking_amended :
    ∀ (st : dispatchState) (inp : ExportInputs) (layer : NewLayer),
      inp.layerCommit = Except.ok layer →
      inp.parentIsImage = true →
      ((exportImage st inp).mounts.head? = some ⟨none, layer⟩ ∧
       ((exportImage st inp).err.isSome → (exportImage st inp).mounts = [⟨none, layer⟩]) ∧
       ((exportImage st inp).err = none →
         ∃ img, inp.createImage = Except.ok img ∧
           (exportImage st inp).mounts = [⟨none, layer⟩, ⟨some img, layer⟩])) := by
  intro st inp layer hl hpi
  unfold exportImage
  simp only [hl, hpi, Bool.not_true]
  cases hm : inp.marshal with
  | error e => simp
  | ok cfg =>
    cases hc : inp.createImage with
    | error e => simp
    | ok img => exact ⟨rfl, by simp, fun _ => ⟨img, rfl, rfl⟩⟩

/-- C5 (witness): the amended theorem applied at a concrete execution where
the store registration fails after the layer commit. -/
theorem exportImage_mount_tracking_amended_witness :
    (⟨Except.ok ⟨"d", "g"⟩, true, Except.ok "cfg", Except.error "store down"⟩ :
        ExportInputs).layerCommit = Except.ok ⟨"d", "g"⟩ ∧
    (⟨Except.ok ⟨"d", "g"⟩, true, Except.ok "cfg", Except.error "store down"⟩ :
        ExportInputs).parentIsImage = true ∧
    (exportImage ⟨"img0", "", ""⟩
        ⟨Except.ok ⟨"d", "g"⟩, true, Except.ok "cfg", Except.error "store down"⟩).mounts.head? =
      some ⟨none, ⟨"d", "g"⟩⟩ :=
  ⟨rfl, rfl,
   (exportImage_mount_tracking_amended ⟨"img0", "", ""⟩
      ⟨Except.ok ⟨"d", "g"⟩, true, Except.ok "cfg", Except.error "store down"⟩
      ⟨"d", "g"⟩ rfl rfl).1⟩


/-- C9 (counterexample): a malformed device mapping (`PathOnHost = "foo"`)
is rejected by `setupWindowsDevices` with a plain unclassified error
(`errors.Errorf`), not an error of the invalid-parameter class. -/
theorem device_error_class_counterexample :
    exceptErrClass (setupWindowsDevices [⟨"foo"⟩]) = some ErrClass.generic ∧
    ErrClass.generic ≠ ErrClass.invalidParameter := by
  constructor
  · decide
  · decide

/-- C9 (amended): malformed credential-spec security options are reported
with the invalid-parameter error class at the runtime-spec boundary, but
malformed device mappings are reported with a plain unclassified error —
only the credential-spec half of the claim holds. -/
theorem windows_boundary_error_classes_amended :
    (∀ d : DeviceMapping, deviceMalformed d.PathOnHost = true →
        exceptErrClass (setupWindowsDevices [d]) = some ErrClass.generic) ∧
    (∀ (collab : CredCollab) (s : String) (rest : List String),
        credOptMalformed s = true →
        exceptErrClass (setWindowsCredentialSpec collab (s :: rest)) =
          some ErrClass.invalidParameter) := by
  constructor
  · intro d hmal
    unfold deviceMalformed at hmal
    unfold setupWindowsDevices
    simp only [Bool.and_eq_true, Bool.not_eq_true'] at hmal
    obtain ⟨hcl, hrest⟩ := hmal
    cases hcut : goCut d.PathOnHost "://" with
    | none => simp [hcl, hcut, exceptErrClass]
    | some p =>
      rw [hcut] at hrest
      cases p with
      | mk idType id =>
        simp only [decide_eq_true_eq] at hrest
        simp [hcl, hcut, hrest, exceptErrClass]
  · intro collab s rest hmal
    unfold credOptMalformed at hmal
    unfold setWindowsCredentialSpec credSpecStep
    cases hcut : goCut s "=" with
    | none => simp [hcut, exceptErrClass]
    | some kv =>
      rw [hcut] at hmal
      cases kv with
      | mk k v =>
        simp only at hmal ⊢
        by_cases hk : goToLower k = "credentialspec"
        · rw [if_neg (by simp [hk])] at hmal ⊢
          cases hvc : goCut v "://" with
          | none => simp [hvc, exceptErrClass, errInvalidCredentialSpecSecOpt]
          | some sv =>
            rw [hvc] at hmal
            cases sv with
            | mk scheme value =>
              simp only [Bool.or_eq_true, decide_eq_true_eq, Bool.not_eq_true',
                Bool.or_eq_false_iff, decide_eq_false_iff_not] at hmal
              rcases hmal with hval | ⟨⟨⟨h1, h2⟩, h3⟩, h4⟩
              · simp [hval, exceptErrClass, errInvalidCredentialSpecSecOpt]
              · simp [h1, h2, h3, h4, exceptErrClass, errInvalidCredentialSpecSecOpt]
        · rw [if_pos (by simp [hk])] at hmal ⊢
          simp [exceptErrClass]

/-- C9 (witness): the amended theorem applied at a malformed device mapping
(empty IDType) and at a malformed credential-spec option (no scheme). -/
theorem windows_boundary_error_classes_amended_witness :
    (deviceMalformed "://dev" = true ∧
     exceptErrClass (setupWindowsDevices [⟨"://dev"⟩]) = some ErrClass.generic) ∧
    (credOptMalformed "credentialspec=borked" = true ∧
     exceptErrClass
        (setWindowsCredentialSpec
          ⟨fun _ => Except.ok "", fun _ => Except.ok "", none⟩
          ["credentialspec=borked"]) = some ErrClass.invalidParameter) :=
  ⟨⟨by decide, windows_boundary_error_classes_amended.1 ⟨"://dev"⟩ (by decide)⟩,
   ⟨by decide, windows_boundary_error_classes_amended.2
      ⟨fun _ => Except.ok "", fun _ => Except.ok "", none⟩ "credentialspec=borked" []
      (by decide)⟩⟩

/-- Every `performCopyTail` trace extends the accumulated prefix `tr`. -/
theorem performCopyTail_trace (st : dispatchState) (inst : CopyInstruction)
    (inp : CopyInputs) (tr : List CopyAction) :
    ∃ rest, (performCopyTail st inst inp tr).2.1 = tr ++ rest := by
  unfold performCopyTail
  cases hm : (materializeLoop inp.materialize inst.infos).2 with
  | some e =>
    simp only [hm]
    exact ⟨(materializeLoop inp.materialize inst.infos).1 ++ [CopyAction.releaseLayer],
      by simp⟩
  | none =>
    simp only [hm]
    exact ⟨(materializeLoop inp.materialize inst.infos).1 ++
        [CopyAction.exportStep, CopyAction.releaseLayer],
      by simp⟩

/-- C6: every `performCopy` execution probes the cache (with the synthetic
comment configuration) as its first action — before any writable-layer
acquisition or ownership resolution — and whenever the probe hits,
`performCopy` returns immediately with the dispatch state's image identity
set to the cached image, having performed no layer acquisition, no ownership
resolution, no materialization and no export. -/
theorem performCopy_probe_first_and_hit_short_circuits :
    (∀ (st : dispatchState) (inst : CopyInstruction) (inp : CopyInputs),
        (performCopy st inst inp).2.1.head? =
          some (CopyAction.probe (copyCommentStr inst))) ∧
    (∀ (st : dispatchState) (inst : CopyInstruction) (inp : CopyInputs),
        inp.probeResult.err = none →
        inp.probeResult.cachedID ≠ "" →
        performCopy st inst inp =
          ({ st with imageID := inp.probeResult.cachedID },
           [CopyAction.probe (copyCommentStr inst)], none)) := by
  constructor
  · intro st inst inp
    simp only [performCopy]
    by_cases hcond : ((probeCache st inp.probeResult).2.2.isSome = true ∨
        (probeCache st inp.probeResult).1 = true)
    · rw [if_pos hcond]
      rfl
    · rw [if_neg hcond]
      cases hgi : inp.getImageMount with
      | error e => rfl
      | ok u =>
        cases hrw : inp.newRWLayer with
        | error e => rfl
        | ok u2 =>
          cases hnd : inp.normalizeDest with
          | error e => rfl
          | ok d =>
            by_cases hch : inst.chownStr ≠ ""
            · rw [if_pos hch]
              cases hpc : inp.parseChown with
              | error e => rfl
              | ok i =>
                obtain ⟨rest, hr⟩ := performCopyTail_trace
                  (probeCache st inp.probeResult).2.1 inst inp
                  ([CopyAction.probe (copyCommentStr inst), CopyAction.getImage] ++
                    [CopyAction.newRWLayer] ++ [CopyAction.resolveOwnership])
                rw [hr]
                rfl
            · rw [if_neg hch]
              obtain ⟨rest, hr⟩ := performCopyTail_trace
                (probeCache st inp.probeResult).2.1 inst inp
                ([CopyAction.probe (copyCommentStr inst), CopyAction.getImage] ++
                  [CopyAction.newRWLayer])
              rw [hr]
              rfl
  · intro st inst inp herr hid
    have hp : probeCache st inp.probeResult =
        (true, { st with imageID := inp.probeResult.cachedID }, none) := by
      unfold probeCache
      rw [if_neg]
      simp [herr, hid]
    simp only [performCopy, hp]
    simp

/-- Nothing changes when nothing is written. -/
theorem agreeBelow_refl (n : Nat) (h : Heap) : Heap.agreeBelow n h h := fun _ _ => rfl

/-- Allocation never disturbs existing cells. -/
theorem agreeBelow_append (h l : Heap) (n : Nat) (hn : n ≤ h.length) :
    Heap.agreeBelow n h (h ++ l) := fun _ hr =>
  List.getElem?_append_left (Nat.lt_of_lt_of_le hr hn)

/-- Writing at or above the watermark never disturbs cells below it. -/
theorem agreeBelow_set (h : Heap) (n : Nat) (r' : HRef) (c : Cell) (hr' : n ≤ r') :
    Heap.agreeBelow n h (h.set r' c) := fun _ hr =>
  List.getElem?_set_ne (Nat.ne_of_gt (Nat.lt_of_lt_of_le hr hr'))

/-- Agreement below a watermark composes along a growing heap. -/
theorem agreeBelow_comp {n m : Nat} {h h' h'' : Heap} (hnm : n ≤ m)
    (a1 : Heap.agreeBelow n h h') (a2 : Heap.agreeBelow m h' h'') :
    Heap.agreeBelow n h h'' := fun r hr =>
  (a2 r (Nat.lt_of_lt_of_le hr hnm)).trans (a1 r hr)

/-- `copyStringSlice` satisfies the deep-copy step contract. -/
theorem copyStringSlice_spec (h : Heap) (o : Option HRef) :
    CopyStepSpec h (copyStringSlice h o) := by
  cases o with
  | none =>
    exact ⟨Nat.le_refl _, agreeBelow_refl _ _, fun _ hr => by simp [copyStringSlice] at hr⟩
  | some r =>
    refine ⟨?_, ?_, ?_⟩
    · simp [copyStringSlice, Heap.alloc]
    · show Heap.agreeBelow h.length h (h ++ [Cell.strs (readStrs h (some r))])
      exact agreeBelow_append _ _ _ (Nat.le_refl _)
    · intro r' hr'
      simp only [copyStringSlice, Heap.alloc] at hr'
      injection hr' with hr'
      exact Nat.le_of_eq hr'

/-- The range-copy loop over a set-typed map cell at `r'` preserves all
cells below `r'` and the heap's length. -/
theorem setInsert_foldl_spec (r' : HRef) (l : List String) (hh : Heap) :
    Heap.agreeBelow r' hh (l.foldl (fun a k => setInsert a r' k) hh) ∧
    (l.foldl (fun a k => setInsert a r' k) hh).length = hh.length := by
  induction l generalizing hh with
  | nil => exact ⟨agreeBelow_refl _ _, rfl⟩
  | cons k ks ih =>
    have h1 : Heap.agreeBelow r' hh (setInsert hh r' k) :=
      agreeBelow_set _ _ _ _ (Nat.le_refl _)
    have hlen : (setInsert hh r' k).length = hh.length := by
      simp [setInsert, Heap.write]
    obtain ⟨a2, l2⟩ := ih (setInsert hh r' k)
    exact ⟨agreeBelow_comp (Nat.le_refl r') h1 a2, by simp [List.foldl_cons, l2, hlen]⟩

/-- The range-copy loop over a string-map cell at `r'` preserves all cells
below `r'` and the heap's length. -/
theorem mapInsert_foldl_spec (r' : HRef) (l : List (String × String)) (hh : Heap) :
    Heap.agreeBelow r' hh (l.foldl (fun a kv => mapInsert a r' kv.1 kv.2) hh) ∧
    (l.foldl (fun a kv => mapInsert a r' kv.1 kv.2) hh).length = hh.length := by
  induction l generalizing hh with
  | nil => exact ⟨agreeBelow_refl _ _, rfl⟩
  | cons kv kvs ih =>
    have h1 : Heap.agreeBelow r' hh (mapInsert hh r' kv.1 kv.2) :=
      agreeBelow_set _ _ _ _ (Nat.le_refl _)
    have hlen : (mapInsert hh r' kv.1 kv.2).length = hh.length := by
      simp [mapInsert, Heap.write]
    obtain ⟨a2, l2⟩ := ih (mapInsert hh r' kv.1 kv.2)
    exact ⟨agreeBelow_comp (Nat.le_refl r') h1 a2, by simp [List.foldl_cons, l2, hlen]⟩

/-- `copySetMap` satisfies the deep-copy step contract. -/
theorem copySetMap_spec (h : Heap) (o : Option HRef) :
    CopyStepSpec h (copySetMap h o) := by
  cases o with
  | none =>
    exact ⟨Nat.le_refl _, agreeBelow_refl _ _, fun _ hr => by simp [copySetMap] at hr⟩
  | some r =>
    obtain ⟨ag, len⟩ :=
      setInsert_foldl_spec h.length (readSet h (some r)) (h ++ [Cell.sset []])
    refine ⟨?_, ?_, ?_⟩
    · show h.length ≤
        ((readSet h (some r)).foldl (fun hh k => setInsert hh h.length k)
          (h ++ [Cell.sset []])).length
      rw [len]
      simp
    · show Heap.agreeBelow h.length h
        ((readSet h (some r)).foldl (fun hh k => setInsert hh h.length k)
          (h ++ [Cell.sset []]))
      exact agreeBelow_comp (Nat.le_refl _)
        (agreeBelow_append _ _ _ (Nat.le_refl _)) ag
    · intro r' hr'
      simp only [copySetMap, Heap.alloc] at hr'
      injection hr' with hr'
      exact Nat.le_of_eq hr'

/-- `copyStrMap` satisfies the deep-copy step contract. -/
theorem copyStrMap_spec (h : Heap) (o : Option HRef) :
    CopyStepSpec h (copyStrMap h o) := by
  cases o with
  | none =>
    exact ⟨Nat.le_refl _, agreeBelow_refl _ _, fun _ hr => by simp [copyStrMap] at hr⟩
  | some r =>
    obtain ⟨ag, len⟩ :=
      mapInsert_foldl_spec h.length (readMap h (some r)) (h ++ [Cell.smap []])
    refine ⟨?_, ?_, ?_⟩
    · show h.length ≤
        ((readMap h (some r)).foldl (fun hh kv => mapInsert hh h.length kv.1 kv.2)
          (h ++ [Cell.smap []])).length
      rw [len]
      simp
    · show Heap.agreeBelow h.length h
        ((readMap h (some r)).foldl (fun hh kv => mapInsert hh h.length kv.1 kv.2)
          (h ++ [Cell.smap []]))
      exact agreeBelow_comp (Nat.le_refl _)
        (agreeBelow_append _ _ _ (Nat.le_refl _)) ag
    · intro r' hr'
      simp only [copyStrMap, Heap.alloc] at hr'
      injection hr' with hr'
      exact Nat.le_of_eq hr'

/-- Membership in a config's reference fields, by field. -/
theorem mem_fieldRefs_iff (c : GoConfig) (r : HRef) :
    r ∈ c.fieldRefs ↔
      (c.Cmd = some r ∨ c.Env = some r ∨ c.Entrypoint = some r ∨ c.OnBuild = some r ∨
       c.Shell = some r ∨ c.Volumes = some r ∨ c.ExposedPorts = some r ∨
       c.Labels = some r) := by
  simp [GoConfig.fieldRefs, Option.mem_toList, Option.mem_def]

/-- Field-wise introduction rules for `GoConfig.fieldRefs` membership. -/
theorem memFR_cmd {c : GoConfig} {r : HRef} (h : c.Cmd = some r) : r ∈ c.fieldRefs :=
  (mem_fieldRefs_iff c r).mpr (Or.inl h)

/-- `Env` introduction for `fieldRefs` membership. -/
theorem memFR_env {c : GoConfig} {r : HRef} (h : c.Env = some r) : r ∈ c.fieldRefs :=
  (mem_fieldRefs_iff c r).mpr (Or.inr (Or.inl h))

/-- `Entrypoint` introduction for `fieldRefs` membership. -/
theorem memFR_entry {c : GoConfig} {r : HRef} (h : c.Entrypoint = some r) :
    r ∈ c.fieldRefs :=
  (mem_fieldRefs_iff c r).mpr (Or.inr (Or.inr (Or.inl h)))

/-- `OnBuild` introduction for `fieldRefs` membership. -/
theorem memFR_onbuild {c : GoConfig} {r : HRef} (h : c.OnBuild = some r) :
    r ∈ c.fieldRefs :=
  (mem_fieldRefs_iff c r).mpr (Or.inr (Or.inr (Or.inr (Or.inl h))))

/-- `Shell` introduction for `fieldRefs` membership. -/
theorem memFR_shell {c : GoConfig} {r : HRef} (h : c.Shell = some r) : r ∈ c.fieldRefs :=
  (mem_fieldRefs_iff c r).mpr (Or.inr (Or.inr (Or.inr (Or.inr (Or.inl h)))))

/-- `Volumes` introduction for `fieldRefs` membership. -/
theorem memFR_volumes {c : GoConfig} {r : HRef} (h : c.Volumes = some r) :
    r ∈ c.fieldRefs :=
  (mem_fieldRefs_iff c r).mpr (Or.inr (Or.inr (Or.inr (Or.inr (Or.inr (Or.inl h))))))

/-- `ExposedPorts` introduction for `fieldRefs` membership. -/
theorem memFR_ports {c : GoConfig} {r : HRef} (h : c.ExposedPorts = some r) :
    r ∈ c.fieldRefs :=
  (mem_fieldRefs_iff c r).mpr
    (Or.inr (Or.inr (Or.inr (Or.inr (Or.inr (Or.inr (Or.inl h)))))))

/-- `Labels` introduction for `fieldRefs` membership. -/
theorem memFR_labels {c : GoConfig} {r : HRef} (h : c.Labels = some r) :
    r ∈ c.fieldRefs :=
  (mem_fieldRefs_iff c r).mpr
    (Or.inr (Or.inr (Or.inr (Or.inr (Or.inr (Or.inr (Or.inr h)))))))

/-- Applying one modifier preserves the fold invariant: modifiers only
allocate fresh cells and reassign fields of the copy. -/
theorem applyMod_inv (h0 : Heap) (base : GoConfig) (m : ModTag) (c : GoConfig) (h : Heap)
    (hwf : ∀ r ∈ base.fieldRefs, r < h0.length)
    (hst : ∀ r ∈ m.storedRefs, r ∉ base.fieldRefs)
    (hinv : ModInv h0 base (c, h)) : ModInv h0 base (applyMod m c h) := by
  obtain ⟨hlen0, hag0, hal0⟩ := hinv
  have hlen : h0.length ≤ h.length := hlen0
  have hag : Heap.agreeBelow h0.length h0 h := hag0
  have hal : ∀ r ∈ c.fieldRefs, r ∉ base.fieldRefs := hal0
  have hfresh : h.length ∉ base.fieldRefs := fun hmem =>
    Nat.lt_irrefl _ (Nat.lt_of_lt_of_le (hwf _ hmem) hlen)
  cases m with
  | withCmd cmd =>
    show ModInv h0 base ({ c with Cmd := cmd }, h)
    refine ⟨hlen, hag, ?_⟩
    intro r hr
    rw [mem_fieldRefs_iff] at hr
    rcases hr with hr | hr | hr | hr | hr | hr | hr | hr
    · exact hst r (by rw [show cmd = some r from hr]; simp [ModTag.storedRefs])
    · exact hal r (memFR_env (show c.Env = some r from hr))
    · exact hal r (memFR_entry (show c.Entrypoint = some r from hr))
    · exact hal r (memFR_onbuild (show c.OnBuild = some r from hr))
    · exact hal r (memFR_shell (show c.Shell = some r from hr))
    · exact hal r (memFR_volumes (show c.Volumes = some r from hr))
    · exact hal r (memFR_ports (show c.ExposedPorts = some r from hr))
    · exact hal r (memFR_labels (show c.Labels = some r from hr))
  | withArgsEscaped b =>
    show ModInv h0 base ({ c with ArgsEscaped := b }, h)
    refine ⟨hlen, hag, ?_⟩
    intro r hr
    rw [mem_fieldRefs_iff] at hr
    rcases hr with hr | hr | hr | hr | hr | hr | hr | hr
    · exact hal r (memFR_cmd (show c.Cmd = some r from hr))
    · exact hal r (memFR_env (show c.Env = some r from hr))
    · exact hal r (memFR_entry (show c.Entrypoint = some r from hr))
    · exact hal r (memFR_onbuild (show c.OnBuild = some r from hr))
    · exact hal r (memFR_shell (show c.Shell = some r from hr))
    · exact hal r (memFR_volumes (show c.Volumes = some r from hr))
    · exact hal r (memFR_ports (show c.ExposedPorts = some r from hr))
    · exact hal r (memFR_labels (show c.Labels = some r from hr))
  | withCmdComment comment platform =>
    show ModInv h0 base
      ({ c with Cmd := some h.length },
       h ++ [Cell.strs (getShell c platform h ++ ["#(nop) ", comment])])
    refine ⟨Nat.le_trans hlen (by rw [List.length_append]; exact Nat.le_add_right _ _),
      agreeBelow_comp hlen hag (agreeBelow_append _ _ _ (Nat.le_refl _)), ?_⟩
    intro r hr
    rw [mem_fieldRefs_iff] at hr
    rcases hr with hr | hr | hr | hr | hr | hr | hr | hr
    · have hre := Option.some.inj (show some h.length = some r from hr)
      rw [← hre]
      exact hfresh
    · exact hal r (memFR_env (show c.Env = some r from hr))
    · exact hal r (memFR_entry (show c.Entrypoint = some r from hr))
    · exact hal r (memFR_onbuild (show c.OnBuild = some r from hr))
    · exact hal r (memFR_shell (show c.Shell = some r from hr))
    · exact hal r (memFR_volumes (show c.Volumes = some r from hr))
    · exact hal r (memFR_ports (show c.ExposedPorts = some r from hr))
    · exact hal r (memFR_labels (show c.Labels = some r from hr))
  | withCmdCommentString comment platform =>
    show ModInv h0 base
      ({ c with Cmd := some h.length },
       h ++ [Cell.strs (getShell c platform h ++ ["#(nop) " ++ comment])])
    refine ⟨Nat.le_trans hlen (by rw [List.length_append]; exact Nat.le_add_right _ _),
      agreeBelow_comp hlen hag (agreeBelow_append _ _ _ (Nat.le_refl _)), ?_⟩
    intro r hr
    rw [mem_fieldRefs_iff] at hr
    rcases hr with hr | hr | hr | hr | hr | hr | hr | hr
    · have hre := Option.some.inj (show some h.length = some r from hr)
      rw [← hre]
      exact hfresh
    · exact hal r (memFR_env (show c.Env = some r from hr))
    · exact hal r (memFR_entry (show c.Entrypoint = some r from hr))
    · exact hal r (memFR_onbuild (show c.OnBuild = some r from hr))
    · exact hal r (memFR_shell (show c.Shell = some r from hr))
    · exact hal r (memFR_volumes (show c.Volumes = some r from hr))
    · exact hal r (memFR_ports (show c.ExposedPorts = some r from hr))
    · exact hal r (memFR_labels (show c.Labels = some r from hr))
  | withEnv env =>
    show ModInv h0 base ({ c with Env := env }, h)
    refine ⟨hlen, hag, ?_⟩
    intro r hr
    rw [mem_fieldRefs_iff] at hr
    rcases hr with hr | hr | hr | hr | hr | hr | hr | hr
    · exact hal r (memFR_cmd (show c.Cmd = some r from hr))
    · exact hst r (by rw [show env = some r from hr]; simp [ModTag.storedRefs])
    · exact hal r (memFR_entry (show c.Entrypoint = some r from hr))
    · exact hal r (memFR_onbuild (show c.OnBuild = some r from hr))
    · exact hal r (memFR_shell (show c.Shell = some r from hr))
    · exact hal r (memFR_volumes (show c.Volumes = some r from hr))
    · exact hal r (memFR_ports (show c.ExposedPorts = some r from hr))
    · exact hal r (memFR_labels (show c.Labels = some r from hr))
  | withEntrypointOverride cmd entry =>
    by_cases hc : 0 < (readStrs h cmd).length
    · have hred : applyMod (ModTag.withEntrypointOverride cmd entry) c h =
          ({ c with Entrypoint := entry }, h) := by
        simp only [applyMod]
        rw [if_pos hc]
      rw [hred]
      refine ⟨hlen, hag, ?_⟩
      intro r hr
      rw [mem_fieldRefs_iff] at hr
      rcases hr with hr | hr | hr | hr | hr | hr | hr | hr
      · exact hal r (memFR_cmd (show c.Cmd = some r from hr))
      · exact hal r (memFR_env (show c.Env = some r from hr))
      · exact hst r (by rw [show entry = some r from hr]; simp [ModTag.storedRefs])
      · exact hal r (memFR_onbuild (show c.OnBuild = some r from hr))
      · exact hal r (memFR_shell (show c.Shell = some r from hr))
      · exact hal r (memFR_volumes (show c.Volumes = some r from hr))
      · exact hal r (memFR_ports (show c.ExposedPorts = some r from hr))
      · exact hal r (memFR_labels (show c.Labels = some r from hr))
    · have hred : applyMod (ModTag.withEntrypointOverride cmd entry) c h = (c, h) := by
        simp only [applyMod]
        rw [if_neg hc]
      rw [hred]
      exact ⟨hlen, hag, hal⟩
  | withoutHealthcheck =>
    show ModInv h0 base ({ c with Healthcheck := some h.length }, h ++ [Cell.health ["NONE"]])
    refine ⟨Nat.le_trans hlen (by rw [List.length_append]; exact Nat.le_add_right _ _),
      agreeBelow_comp hlen hag (agreeBelow_append _ _ _ (Nat.le_refl _)), ?_⟩
    intro r hr
    rw [mem_fieldRefs_iff] at hr
    rcases hr with hr | hr | hr | hr | hr | hr | hr | hr
    · exact hal r (memFR_cmd (show c.Cmd = some r from hr))
    · exact hal r (memFR_env (show c.Env = some r from hr))
    · exact hal r (memFR_entry (show c.Entrypoint = some r from hr))
    · exact hal r (memFR_onbuild (show c.OnBuild = some r from hr))
    · exact hal r (memFR_shell (show c.Shell = some r from hr))
    · exact hal r (memFR_volumes (show c.Volumes = some r from hr))
    · exact hal r (memFR_ports (show c.ExposedPorts = some r from hr))
    · exact hal r (memFR_labels (show c.Labels = some r from hr))

/-- The fold of all modifiers preserves the invariant. -/
theorem foldl_applyMod_inv (h0 : Heap) (base : GoConfig) (mods : List ModTag)
    (start : GoConfig × Heap)
    (hwf : ∀ r ∈ base.fieldRefs, r < h0.length)
    (hmods : ∀ m ∈ mods, ∀ r ∈ m.storedRefs, r ∉ base.fieldRefs)
    (hinv : ModInv h0 base start) :
    ModInv h0 base (mods.foldl (fun p m => applyMod m p.1 p.2) start) := by
  induction mods generalizing start with
  | nil => exact hinv
  | cons m ms ih =>
    rw [List.foldl_cons]
    exact ih (applyMod m start.1 start.2)
      (fun m' hm' => hmods m' (List.mem_cons_of_mem _ hm'))
      (applyMod_inv h0 base m start.1 start.2 hwf
        (hmods m (List.mem_cons_self _ _)) hinv)

/-- Chaining a deep-copy step after an already-established extension. -/
theorem copyStep_chain {h h1 : Heap} {res : Option HRef × Heap}
    (hlen : h.length ≤ h1.length) (hag : Heap.agreeBelow h.length h h1)
    (hs : CopyStepSpec h1 res) :
    h.length ≤ res.2.length ∧ Heap.agreeBelow h.length h res.2 ∧
      ∀ r, res.1 = some r → h.length ≤ r := by
  obtain ⟨l2, a2, f2⟩ := hs
  exact ⟨Nat.le_trans hlen l2, agreeBelow_comp hlen hag a2,
    fun r hr => Nat.le_trans hlen (f2 r hr)⟩

/-- The deep-copy phase establishes the invariant: the original heap is
untouched and every field of the copy is `nil` or freshly allocated. -/
theorem copyRunConfigCopy_inv (h : Heap) (rc : GoConfig)
    (hwf : ∀ r ∈ rc.fieldRefs, r < h.length) :
    ModInv h rc (copyRunConfigCopy h rc) := by
  have t1 := copyStep_chain (Nat.le_refl h.length) (agreeBelow_refl _ _)
    (copyStringSlice_spec h rc.Cmd)
  have t2 := copyStep_chain t1.1 t1.2.1 (copyStringSlice_spec _ rc.Env)
  have t3 := copyStep_chain t2.1 t2.2.1 (copyStringSlice_spec _ rc.Entrypoint)
  have t4 := copyStep_chain t3.1 t3.2.1 (copyStringSlice_spec _ rc.OnBuild)
  have t5 := copyStep_chain t4.1 t4.2.1 (copyStringSlice_spec _ rc.Shell)
  have t6 := copyStep_chain t5.1 t5.2.1 (copySetMap_spec _ rc.Volumes)
  have t7 := copyStep_chain t6.1 t6.2.1 (copySetMap_spec _ rc.ExposedPorts)
  have t8 := copyStep_chain t7.1 t7.2.1 (copyStrMap_spec _ rc.Labels)
  refine ⟨t8.1, t8.2.1, ?_⟩
  intro r hr hmem
  have hlt := hwf r hmem
  rw [mem_fieldRefs_iff] at hr
  rcases hr with hr | hr | hr | hr | hr | hr | hr | hr
  · exact Nat.lt_irrefl r (Nat.lt_of_lt_of_le hlt (t1.2.2 r hr))
  · exact Nat.lt_irrefl r (Nat.lt_of_lt_of_le hlt (t2.2.2 r hr))
  · exact Nat.lt_irrefl r (Nat.lt_of_lt_of_le hlt (t3.2.2 r hr))
  · exact Nat.lt_irrefl r (Nat.lt_of_lt_of_le hlt (t4.2.2 r hr))
  · exact Nat.lt_irrefl r (Nat.lt_of_lt_of_le hlt (t5.2.2 r hr))
  · exact Nat.lt_irrefl r (Nat.lt_of_lt_of_le hlt (t6.2.2 r hr))
  · exact Nat.lt_irrefl r (Nat.lt_of_lt_of_le hlt (t7.2.2 r hr))
  · exact Nat.lt_irrefl r (Nat.lt_of_lt_of_le hlt (t8.2.2 r hr))

/-- C3: deriving a configuration from a base with any sequence of the
defined modifiers (whose explicit slice arguments, coming from elsewhere, do
not alias the base) mutates no heap cell that existed before the derivation
— in particular no slice or map reachable from the base — and none of the
derived configuration's slice/map fields aliases any of the base's. -/
theorem copyRunConfig_no_mutation_no_alias
    (h : Heap) (base : GoConfig) (mods : List ModTag)
    (hwf : ∀ r ∈ base.fieldRefs, r < h.length)
    (hmods : ∀ m ∈ mods, ∀ r ∈ m.storedRefs, r ∉ base.fieldRefs) :
    Heap.agreeBelow h.length h (copyRunConfig h base mods).2 ∧
      ∀ r ∈ (copyRunConfig h base mods).1.fieldRefs, r ∉ base.fieldRefs := by
  have hinv := foldl_applyMod_inv h base mods (copyRunConfigCopy h base) hwf hmods
    (copyRunConfigCopy_inv h base hwf)
  exact ⟨hinv.2.1, hinv.2.2⟩

/-- C3 (witness): the theorem applied at a concrete base (a shell slice and
a volumes map on the heap) with a comment modifier, a healthcheck disable
and a command reset. -/
theorem copyRunConfig_no_mutation_no_alias_witness :
    (∀ r ∈ (⟨some 0, none, none, none, none, some 1, none, none, none, false, ""⟩ :
        GoConfig).fieldRefs, r < ([Cell.strs ["echo", "hi"], Cell.sset ["/v"]] : Heap).length) ∧
    (∀ m ∈ [ModTag.withCmdCommentString "WORKDIR /app" "linux", ModTag.withoutHealthcheck,
        ModTag.withCmd none],
      ∀ r ∈ m.storedRefs,
        r ∉ (⟨some 0, none, none, none, none, some 1, none, none, none, false, ""⟩ :
          GoConfig).fieldRefs) ∧
    (Heap.agreeBelow 2 [Cell.strs ["echo", "hi"], Cell.sset ["/v"]]
      (copyRunConfig [Cell.strs ["echo", "hi"], Cell.sset ["/v"]]
        ⟨some 0, none, none, none, none, some 1, none, none, none, false, ""⟩
        [ModTag.withCmdCommentString "WORKDIR /app" "linux", ModTag.withoutHealthcheck,
         ModTag.withCmd none]).2 ∧
     ∀ r ∈ (copyRunConfig [Cell.strs ["echo", "hi"], Cell.sset ["/v"]]
        ⟨some 0, none, none, none, none, some 1, none, none, none, false, ""⟩
        [ModTag.withCmdCommentString "WORKDIR /app" "linux", ModTag.withoutHealthcheck,
         ModTag.withCmd none]).1.fieldRefs,
       r ∉ (⟨some 0, none, none, none, none, some 1, none, none, none, false, ""⟩ :
         GoConfig).fieldRefs) :=
  ⟨by decide, by decide,
   copyRunConfig_no_mutation_no_alias
     [Cell.strs ["echo", "hi"], Cell.sset ["/v"]]
     ⟨some 0, none, none, none, none, some 1, none, none, none, false, ""⟩
     [ModTag.withCmdCommentString "WORKDIR /app" "linux", ModTag.withoutHealthcheck,
      ModTag.withCmd none]
     (by decide) (by decide)⟩

/-- C6 (witness): the hit conjunct applied at a concrete instruction and a
probe that returns a cached image. -/
theorem performCopy_hit_witness :
    ({ cachedID := "cachedImg", err := none } : ProbeResult).err = none ∧
    ({ cachedID := "cachedImg", err := none } : ProbeResult).cachedID ≠ "" ∧
    performCopy ⟨"img0", "", "linux"⟩ ⟨"COPY", "", "/dst", [⟨"ctx", "h1"⟩]⟩
        ⟨⟨"cachedImg", none⟩, Except.ok (), Except.ok (), Except.ok "/dst",
         Except.ok ⟨0, 0⟩, fun _ => none,
         ⟨Except.ok ⟨"d", "g"⟩, true, Except.ok "cfg", Except.ok ⟨"img1"⟩⟩, "linux"⟩ =
      (⟨"cachedImg", "", "linux"⟩,
       [CopyAction.probe (copyCommentStr ⟨"COPY", "", "/dst", [⟨"ctx", "h1"⟩]⟩)], none) :=
  ⟨rfl, by decide,
   performCopy_probe_first_and_hit_short_circuits.2
     ⟨"img0", "", "linux"⟩ ⟨"COPY", "", "/dst", [⟨"ctx", "h1"⟩]⟩
     ⟨⟨"cachedImg", none⟩, Except.ok (), Except.ok (), Except.ok "/dst",
      Except.ok ⟨0, 0⟩, fun _ => none,
      ⟨Except.ok ⟨"d", "g"⟩, true, Except.ok "cfg", Except.ok ⟨"img1"⟩⟩, "linux"⟩
     rfl (by decide)⟩
